import Mathlib

/-!
Shallow embedding of the query-processing and catalog/storage core of a small
SQL database server written in Rust, together with proofs about it.

Source layout mirrored here:
- `src/entities/types/src/lib.rs` — the `SqlType` enumeration;
- `src/data/catalog/src/in_memory.rs` — the in-memory storage engine
  (`InMemoryTableHandle`, `InMemorySchemaHandle`, `InMemoryCatalogHandle`);
- `src/src/query_analyzer/src/lib.rs` — `Analyzer::describe`;
- `src/src/query_executor/src/ddl/drop_table.rs` — `DropTableCommand`;
- `src/src/node/src/query_engine/mod.rs` — the session command loop
  (Bind and Parse flows);
- the expression evaluator (`expr_eval`), modelled from the specification.

Rust `u64` counters are embedded as `Nat` with explicit `% 2 ^ 64` where the
counter is incremented; `BTreeMap<Binary, Binary>` is embedded as an
association list kept sorted by the lexicographic byte order of keys, which is
how `Ord` on byte vectors behaves in Rust.
-/

/-! ## Byte sequences and their lexicographic order

The `binary` crate is not part of the sources; per the specification a packed
key is a length-prefixed byte encoding whose lexicographic order agrees with
the numeric order of the leading 64-bit record id. -/

/-- Big-endian byte encoding of a natural number into `w` bytes
(as `u64::to_be_bytes` produces for `w = 8`). -/
def beBytes : Nat → Nat → List Nat
  | 0, _ => []
  | w + 1, n => (n / 256 ^ w) :: beBytes w (n % 256 ^ w)

/-- Lexicographic comparison of byte sequences, the order `Ord` gives
`Vec<u8>` in Rust: pointwise, with a strict prefix ordered first. -/
def binCmp : List Nat → List Nat → Ordering
  | [], [] => .eq
  | [], _ :: _ => .lt
  | _ :: _, [] => .gt
  | a :: as_, b :: bs =>
    match compare a b with
    | .eq => binCmp as_ bs
    | o => o

/-- Modelled from the spec: a single typed scalar. The 64-bit unsigned
variant backs record-id keys (`Datum::from_u64`); the 16-bit signed variant
appears in evaluator rows (`Datum::from_i16`). -/
inductive Datum where
  | u64 (n : Nat) : Datum
  | i16 (n : Int) : Datum
deriving DecidableEq, Repr

/-- Modelled from the spec: `Binary::pack` frames each field with a length
byte followed by its big-endian payload (two's complement for the signed
variant); lexicographic byte order of packed keys then matches numeric order
of the leading 64-bit record id. -/
def Binary.pack (data : List Datum) : List Nat :=
  data.flatMap fun d =>
    match d with
    | .u64 n => 8 :: beBytes 8 n
    | .i16 n => 2 :: beBytes 2 (n % 2 ^ 16).toNat

/-- Key of the record with record-id `i`: `Binary::pack(&[Datum::from_u64(i)])`. -/
def packKey (i : Nat) : List Nat := Binary.pack [Datum.u64 i]

/-! ## The in-memory table (`InMemoryTableHandle`, in_memory.rs lines 27-88) -/

/-- State of one `InMemoryTableHandle`: the `BTreeMap<Binary, Binary>` of
records as a key-sorted association list, plus the `record_ids` and
`column_ords` atomic `u64` counters. -/
structure TableState where
  records : List (List Nat × List Nat)
  recordIds : Nat
  columnOrds : Nat
deriving DecidableEq, Repr

/-- The freshly created table: `InMemoryTableHandle::default()` — empty map,
both counters zero. -/
def TableState.fresh : TableState := ⟨[], 0, 0⟩

/-- Insertion into the sorted association list, as `BTreeMap::insert`:
replaces the value when the key is already present, otherwise places the new
pair at its ordered position. -/
def btreeInsert (k v : List Nat) : List (List Nat × List Nat) → List (List Nat × List Nat)
  | [] => [(k, v)]
  | (k', v') :: rest =>
    match binCmp k k' with
    | .lt => (k, v) :: (k', v') :: rest
    | .eq => (k, v) :: rest
    | .gt => (k', v') :: btreeInsert k v rest

/-- Lookup in the association list (`BTreeMap::get`), keys compared by
`binCmp`. -/
def recLookup : List (List Nat × List Nat) → List Nat → Option (List Nat)
  | [], _ => none
  | (k', v) :: rest, k => if binCmp k k' = .eq then some v else recLookup rest k

/-- The `select` method (in_memory.rs lines 35-42): the cursor over all
records in key order. -/
def TableState.select (st : TableState) : List (List Nat × List Nat) :=
  st.records

/-- Loop body sequence of the `insert` method: for each value allocate the
next record id with `fetch_add` (wrapping at `2 ^ 64`), pack it as the key
and store the pair. -/
def insertLoop (st : TableState) (data : List (List Nat)) : TableState :=
  data.foldl
    (fun s value =>
      let recordId := s.recordIds
      let key := Binary.pack [Datum.u64 recordId]
      { s with
        records := btreeInsert key value s.records
        recordIds := (s.recordIds + 1) % 2 ^ 64 })
    st

/-- The `insert` method (in_memory.rs lines 44-56): run the loop and return
the number of values passed. -/
def TableState.insert (st : TableState) (data : List (List Nat)) : TableState × Nat :=
  (insertLoop st data, data.length)

/-- Loop body sequence of the `update` method: re-insert each pair into the
map, replacing the stored value. -/
def updateFold (data : List (List Nat × List Nat)) (recs : List (List Nat × List Nat)) :
    List (List Nat × List Nat) :=
  data.foldl (fun m kv => btreeInsert kv.1 kv.2 m) recs

/-- The `update` method (in_memory.rs lines 58-68): run the loop and return
the length of the input. -/
def TableState.update (st : TableState) (data : List (List Nat × List Nat)) : TableState × Nat :=
  ({ st with records := updateFold data st.records }, data.length)

/-- The `delete` method (in_memory.rs lines 70-83): collect the present keys
that occur in the argument and remove them, returning how many were removed. -/
def TableState.delete (st : TableState) (data : List (List Nat)) : TableState × Nat :=
  let keys := (st.records.filter (fun kv => data.contains kv.1)).map Prod.fst
  let final := { st with records := st.records.filter (fun kv => !(keys.contains kv.1)) }
  (final, keys.length)

/-- The `next_column_ord` method (in_memory.rs lines 85-87). -/
def TableState.nextColumnOrd (st : TableState) : TableState × Nat :=
  ({ st with columnOrds := (st.columnOrds + 1) % 2 ^ 64 }, st.columnOrds)

/-- Sequence of separate `insert` calls; returns the final state and the
value each call returned, in order. -/
def applyInserts (st : TableState) : List (List (List Nat)) → TableState × List Nat
  | [] => (st, [])
  | batch :: rest =>
    let (st', n) := st.insert batch
    let (st'', ns) := applyInserts st' rest
    (st'', n :: ns)

/-- The expected contents of a table that received values `vs` starting at
record-id `start`: consecutive packed keys paired with the values. -/
def recordsFrom (start : Nat) : List (List Nat) → List (List Nat × List Nat)
  | [] => []
  | v :: vs => (packKey start, v) :: recordsFrom (start + 1) vs

/-- Key-sortedness of a record list: the keys are pairwise strictly
increasing in the lexicographic byte order, the `BTreeMap` iteration
invariant. -/
def SortedRecs (l : List (List Nat × List Nat)) : Prop :=
  (l.map Prod.fst).Pairwise (fun a b => binCmp a b = .lt)

instance (l : List (List Nat × List Nat)) : Decidable (SortedRecs l) := by
  unfold SortedRecs; infer_instance

/-! ## Schema and catalog handles (in_memory.rs lines 90-152)

`DashMap` is embedded as an association list with first-match lookup; the
claims here only depend on `get`/`contains_key`/`insert`/`remove` behaviour
for a single name. -/

/-- Association-list lookup standing for `DashMap::get`. -/
def dashGet {α : Type} : List (String × α) → String → Option α
  | [], _ => none
  | (n, a) :: rest, name => if name = n then some a else dashGet rest name

/-- State of one `InMemorySchemaHandle`: its named tables. -/
structure SchemaState where
  tables : List (String × TableState)
deriving DecidableEq, Repr

/-- The schema-level `work_with` (in_memory.rs lines 117-119):
`self.tables.get(table_name).map(|table| operation(&*table))`. -/
def SchemaState.workWith {α : Type} (s : SchemaState) (tableName : String)
    (operation : TableState → α) : Option α :=
  (dashGet s.tables tableName).map operation

/-- The schema-level `create_table` (in_memory.rs lines 98-106). -/
def SchemaState.createTable (s : SchemaState) (tableName : String) : SchemaState × Bool :=
  match dashGet s.tables tableName with
  | some _ => (s, false)
  | none => (⟨(tableName, TableState.fresh) :: s.tables⟩, true)

/-- State of one `InMemoryCatalogHandle`: its named schemas. -/
structure CatalogState where
  schemas : List (String × SchemaState)
deriving DecidableEq, Repr

/-- The catalog-level `work_with` (in_memory.rs lines 149-151):
`self.schemas.get(schema_name).map(|schema| operation(&*schema))`. -/
def CatalogState.workWith {α : Type} (c : CatalogState) (schemaName : String)
    (operation : SchemaState → α) : Option α :=
  (dashGet c.schemas schemaName).map operation

/-- A storage operation addressed through both `work_with` levels, the way
every table operation is reached in the tests and the executor:
`catalog.work_with(schema, |s| s.work_with(table, op))`. -/
def nestedWorkWith {α : Type} (c : CatalogState) (schemaName tableName : String)
    (operation : TableState → α) : Option (Option α) :=
  c.workWith schemaName fun s => s.workWith tableName operation

/-! ## SqlType (entities/types/src/lib.rs lines 29-85) -/

/-- The closed enumeration of SQL scalar types. -/
inductive SqlType where
  | bool
  | char (len : Nat)
  | varChar (len : Nat)
  | smallInt
  | integer
  | bigInt
  | real
  | doublePrecision
deriving DecidableEq, Repr

/-- General classification used for operator typing. -/
inductive GeneralType where
  | string
  | number
  | bool
deriving DecidableEq, Repr

/-- The `type_id` method (lib.rs lines 42-53). -/
def SqlType.typeId : SqlType → Nat
  | .bool => 0
  | .char _ => 1
  | .varChar _ => 2
  | .smallInt => 3
  | .integer => 4
  | .bigInt => 5
  | .real => 6
  | .doublePrecision => 7

/-- The `general_type` method (lib.rs lines 55-63). -/
def SqlType.generalType : SqlType → GeneralType
  | .bool => .bool
  | .char _ | .varChar _ => .string
  | .smallInt | .integer | .bigInt | .real | .doublePrecision => .number

/-- The `from_type_id` method (lib.rs lines 65-77); the wildcard arm is
`unreachable!()`, embedded as `none`. -/
def SqlType.fromTypeId (typeId charsLen : Nat) : Option SqlType :=
  match typeId with
  | 0 => some .bool
  | 1 => some (.char charsLen)
  | 2 => some (.varChar charsLen)
  | 3 => some .smallInt
  | 4 => some .integer
  | 5 => some .bigInt
  | 6 => some .real
  | 7 => some .doublePrecision
  | _ => none

/-- The `chars_len` method (lib.rs lines 79-84). -/
def SqlType.charsLen : SqlType → Option Nat
  | .char len | .varChar len => some len
  | _ => none

/-! ## Analyzer (src/src/query_analyzer/src/lib.rs lines 30-47)

The `metadata` crate (`DataDefinition`/`MetadataView`) is not under the
sources; its `table_desc` read path is modelled from the specification. -/

/-- The error `NotFoundError ∈ {Schema, Object}` distinguishing a missing
schema from a missing table. -/
inductive NotFoundError where
  | schema
  | object
deriving DecidableEq, Repr

/-- A column definition; the ordinal is the position in the table's column
list. -/
structure ColumnDef where
  name : String
  sqlType : SqlType
deriving DecidableEq, Repr

/-- A table known to the metadata: its numeric id and its columns in ordinal
order. -/
structure TableDef where
  tableId : Nat
  columns : List ColumnDef
deriving DecidableEq, Repr

/-- A schema known to the metadata: its numeric id and its named tables. -/
structure SchemaDef where
  schemaId : Nat
  tables : List (String × TableDef)
deriving DecidableEq, Repr

/-- The metadata catalog: named schemas. -/
structure Metadata where
  schemas : List (String × SchemaDef)
deriving DecidableEq, Repr

/-- Modelled from the spec: the metadata crate's `table_desc` read path.
Missing schema yields `NotFoundError::Schema`, missing table inside an
existing schema yields `NotFoundError::Object`, otherwise the table
definition (with its schema id) is returned. -/
def Metadata.tableDesc (md : Metadata) (schemaName tableName : String) :
    Except NotFoundError (Nat × TableDef) :=
  match dashGet md.schemas schemaName with
  | none => .error .schema
  | some sch =>
    match dashGet sch.tables tableName with
    | none => .error .object
    | some t => .ok (sch.schemaId, t)

/-- The SQL statements reaching the analyzer and planner. Table references
are embedded as already-split (schema, table) qualified names. -/
inductive Statement where
  | insert (schemaName tableName : String)
  | select (schemaName tableName : String)
  | update (schemaName tableName : String)
  | createTable (schemaName tableName : String)
  | setVariable (name value : String)
deriving DecidableEq, Repr

/-- The `Statement::Insert { .. }` pattern of the `describe` match. -/
def Statement.isInsert : Statement → Bool
  | .insert _ _ => true
  | _ => false

/-- The analyzer's `InsertStatement { table_id, sql_types }`. -/
structure InsertStatement where
  tableId : Nat × Nat
  sqlTypes : List SqlType
deriving DecidableEq, Repr

/-- The typed query description produced by the analyzer. -/
inductive Description where
  | insert (statement : InsertStatement)
deriving DecidableEq, Repr

/-- The analyzer's error taxonomy for `describe`. -/
inductive DescriptionError where
  | tableDoesNotExist (name : String)
  | schemaDoesNotExist (name : String)
deriving DecidableEq, Repr

/-- Result of running `Analyzer::describe`, with `panics` standing for the
`unimplemented!()` arm. -/
inductive DescribeOutcome where
  | ok (d : Description)
  | err (e : DescriptionError)
  | panics
deriving DecidableEq, Repr

/-- The `Analyzer::describe` method (query_analyzer lib.rs lines 30-47):
`INSERT` resolves the qualified table through `table_desc`, mapping
`NotFoundError::Object` to `table_does_not_exist` on the dotted name and
`NotFoundError::Schema` to `schema_does_not_exist` on the schema name; every
other statement hits `unimplemented!()`. -/
def Analyzer.describe (md : Metadata) (statement : Statement) : DescribeOutcome :=
  match statement with
  | .insert schemaName tableName =>
    match md.tableDesc schemaName tableName with
    | .ok (schemaId, t) =>
      .ok (.insert ⟨(schemaId, t.tableId), t.columns.map ColumnDef.sqlType⟩)
    | .error .object => .err (.tableDoesNotExist (schemaName ++ "." ++ tableName))
    | .error .schema => .err (.schemaDoesNotExist schemaName)
  | _ => .panics

/-! ## Session events, errors and the query engine
(src/src/node/src/query_engine/mod.rs) -/

/-- The `QueryEvent`s the embedded flows emit. -/
inductive QueryEvent where
  | tableDropped
  | bindComplete
  | parseComplete
  | queryComplete
deriving DecidableEq, Repr

/-- The user-facing `QueryError` taxonomy (the constructors the embedded
flows reach). -/
inductive QueryError where
  | protocolViolation (message : String)
  | preparedStatementDoesNotExist (name : String)
  | portalDoesNotExist (name : String)
  | invalidParameterValue (message : String)
  | tableDoesNotExist (name : String)
  | schemaDoesNotExist (name : String)
  | columnDoesNotExist (name : String)
  | undefinedFunction (op lhs rhs : String)
  | divisionByZero
deriving DecidableEq, Repr

/-- A message sent on the session's `Sender`:
`Result<QueryEvent, QueryError>`. -/
abbrev SessionMsg := Except QueryError QueryEvent

/-! ### DropTableCommand (src/src/query_executor/src/ddl/drop_table.rs) -/

/-- The `DropTableCommand::execute` method (drop_table.rs lines 36-43) as a
function of `data_manager.drop_table`'s result: a failed drop is only
logged (second component `true`), and `TableDropped` is sent
unconditionally. -/
def dropTableExecute (dropResult : Except Unit Unit) : List SessionMsg × Bool :=
  match dropResult with
  | .error _ => ([.ok .tableDropped], true)
  | .ok _ => ([.ok .tableDropped], false)

/-! ### Extended-query flow: Parse and Bind -/

/-- The wire-protocol value formats. -/
inductive PgFormat where
  | text
  | binary
deriving DecidableEq, Repr

/-- The wire-protocol parameter types the embedded flows use. -/
inductive PgType where
  | bool
  | smallInt
  | integer
  | bigInt
  | char
  | varChar
deriving DecidableEq, Repr

/-- Decoded `PostgreSqlValue`s. -/
inductive PgValue where
  | null
  | int (n : Int)
  | text (s : String)
deriving DecidableEq, Repr

/-- Modelled from the spec: `PgType::decode(format, bytes)` of the external
`pg_wire` collaborator. Binary-format integers are big-endian; text-format
integers are decimal digit strings; anything else is a decode failure. -/
def PgType.decode (t : PgType) (fmt : PgFormat) (bytes : List Nat) :
    Except String PgValue :=
  match t, fmt with
  | .smallInt, .binary | .integer, .binary | .bigInt, .binary =>
    .ok (.int (bytes.foldl (fun acc b => acc * 256 + (b % 256)) 0))
  | .smallInt, .text | .integer, .text | .bigInt, .text =>
    if bytes ≠ [] ∧ bytes.all fun b => 48 ≤ b ∧ b ≤ 57 then
      .ok (.int (bytes.foldl (fun acc b => acc * 10 + (b - 48)) 0))
    else .error "invalid input syntax for integer"
  | .bool, _ => .ok (.int (if bytes = [116] then 1 else 0))
  | .char, _ | .varChar, _ => .ok (.text (toString bytes))

/-- The `Into<PgType>` conversion for `&SqlType` (entities/types lib.rs
lines 120-131); `Real` and `DoublePrecision` hit `unreachable!()`, embedded
as `none`. -/
def sqlTypeToPg : SqlType → Option PgType
  | .bool => some .bool
  | .char _ => some .char
  | .varChar _ => some .varChar
  | .smallInt => some .smallInt
  | .integer => some .integer
  | .bigInt => some .bigInt
  | .real | .doublePrecision => none

/-- A prepared statement retained by the session:
`PreparedStatement { stmt, param_types, description }`. -/
structure PreparedStatement where
  stmt : Statement
  paramTypes : List PgType
  description : List (String × PgType)
deriving DecidableEq, Repr

/-- Per-connection session state: named prepared statements and portals
(portal name mapped to statement name, bound statement and result formats). -/
structure SessionState where
  preparedStatements : List (String × PreparedStatement)
  portals : List (String × (String × Statement × List PgFormat))
deriving DecidableEq, Repr

/-- The `pad_formats` helper (mod.rs lines 380-387): zero formats means all
text, one format is repeated, otherwise the count must match exactly. -/
def padFormats (formats : List PgFormat) (paramLen : Nat) :
    Except String (List PgFormat) :=
  match formats with
  | [] => .ok (List.replicate paramLen .text)
  | [f] => .ok (List.replicate paramLen f)
  | fs =>
    if fs.length = paramLen then .ok fs
    else .error "field format specifiers do not match the parameter count"

/-- The parameter-decoding loop of `bind_prepared_statement_to_portal`
(mod.rs lines 332-349): `izip!` truncates at the shortest input; an absent
raw parameter decodes to NULL; the first decode failure aborts with its
message. -/
def decodeParams :
    List (Option (List Nat)) → List PgType → List PgFormat →
    Except String (List PgValue)
  | [], _, _ => .ok []
  | _, [], _ => .ok []
  | _, _, [] => .ok []
  | raw :: rs, t :: ts, f :: fs =>
    match raw with
    | none => (decodeParams rs ts fs).map (fun ps => .null :: ps)
    | some bytes =>
      match t.decode f bytes with
      | .ok v => (decodeParams rs ts fs).map (fun ps => v :: ps)
      | .error msg => .error msg

/-- Modelled from the spec: `ParamBinder::bind` of the external `binder`
crate substitutes placeholders in the AST by the bound values. The embedded
statement fragment carries no placeholder nodes, so substitution always
succeeds and leaves the statement unchanged. -/
def paramBinderBind (stmt : Statement) (_params : List PgValue) :
    Except Unit Statement :=
  .ok stmt

/-- The `bind_prepared_statement_to_portal` helper (mod.rs lines 314-368).
On failure it returns the error messages it sent (none at all for a binder
failure, which the caller only logs). -/
def bindToPortal (ps : PreparedStatement) (paramFormats : List PgFormat)
    (rawParams : List (Option (List Nat))) (resultFormats : List PgFormat) :
    Except (List SessionMsg) (Statement × List PgFormat) :=
  match padFormats paramFormats rawParams.length with
  | .error msg => .error [.error (.protocolViolation msg)]
  | .ok padded =>
    match decodeParams rawParams ps.paramTypes padded with
    | .error msg => .error [.error (.invalidParameterValue msg)]
    | .ok params =>
      match paramBinderBind ps.stmt params with
      | .error _ => .error []
      | .ok newStmt =>
        match padFormats resultFormats ps.description.length with
        | .error msg => .error [.error (.protocolViolation msg)]
        | .ok rf => .ok (newStmt, rf)

/-- Arguments of a wire `Bind` command. -/
structure BindArgs where
  portalName : String
  statementName : String
  paramFormats : List PgFormat
  rawParams : List (Option (List Nat))
  resultFormats : List PgFormat
deriving Repr

/-- The `Command::Bind` arm of `QueryEngine::execute` (mod.rs lines 66-114).
A missing prepared statement is reported; a parameter-count mismatch sends a
`protocol_violation` but — exactly as the source — does not return, so the
bind still proceeds; on success the portal is stored and `BindComplete` is
sent after whatever was already sent. -/
def executeBind (session : SessionState) (args : BindArgs) :
    SessionState × List SessionMsg :=
  match dashGet session.preparedStatements args.statementName with
  | none => (session, [.error (.preparedStatementDoesNotExist args.statementName)])
  | some ps =>
    let mismatchMsgs : List SessionMsg :=
      if ps.paramTypes.length ≠ args.rawParams.length then
        [.error (.protocolViolation
          ("Bind message supplies " ++ toString args.rawParams.length ++
            " parameters, but prepared statement " ++ args.statementName ++
            " requires " ++ toString ps.paramTypes.length))]
      else []
    match bindToPortal ps args.paramFormats args.rawParams args.resultFormats with
    | .ok (newStmt, rf) =>
      ({ session with
          portals := (args.portalName, (args.statementName, newStmt, rf)) :: session.portals },
        mismatchMsgs ++ [.ok .bindComplete])
    | .error msgs => (session, mismatchMsgs ++ msgs)

/-- The `Plan::Insert` arm of the `Command::Parse` flow (mod.rs lines
186-208) as a function of the analyzed statement: a successful description
stores the prepared statement (with parameter types projected through
`Into<PgType>`) and sends `ParseComplete`; both description errors are sent
as `table_does_not_exist` with the carried name; `none` stands for a panic
(either the analyzer's `unimplemented!()` or the `unreachable!()` type
projection). -/
def parseInsertArm (md : Metadata) (session : SessionState)
    (statementName : String) (statement : Statement) :
    Option (SessionState × List SessionMsg) :=
  match Analyzer.describe md statement with
  | .ok (.insert ins) =>
    match ins.sqlTypes.mapM sqlTypeToPg with
    | some pgTypes =>
      some ({ session with
          preparedStatements :=
            (statementName, ⟨statement, pgTypes, []⟩) :: session.preparedStatements },
        [.ok .parseComplete])
    | none => none
  | .err (.tableDoesNotExist name) => some (session, [.error (.tableDoesNotExist name)])
  | .err (.schemaDoesNotExist name) => some (session, [.error (.tableDoesNotExist name)])
  | .panics => none

/-! ## Expression evaluator

The `expr_eval` crate's implementation is not under the sources (only its
test module is); the evaluator is modelled from the specification's binary
operator typing table (§4.6), with the `FLOAT` operand naming for bitwise
operators taken from the spec's concrete scenarios. `BigDecimal` is embedded
as `ℚ`. -/

/-- A reduced scalar value. -/
inductive ScalarValue where
  | number (q : ℚ)
  | string (s : String)
  | bool (b : Bool)
deriving DecidableEq, Repr

/-- The binary operators of the typing table. -/
inductive BinaryOp where
  | add
  | sub
  | mul
  | div
  | mod
  | bitwiseAnd
  | bitwiseOr
  | concat
deriving DecidableEq, Repr

/-- A scalar expression tree. -/
inductive ScalarOp where
  | column (name : String)
  | value (v : ScalarValue)
  | binary (op : BinaryOp) (lhs rhs : ScalarOp)
deriving DecidableEq, Repr

/-- The operator symbol reported in `undefined_function` errors. -/
def BinaryOp.symbol : BinaryOp → String
  | .add => "+"
  | .sub => "-"
  | .mul => "*"
  | .div => "/"
  | .mod => "%"
  | .bitwiseAnd => "&"
  | .bitwiseOr => "|"
  | .concat => "||"

/-- The general type name of an operand as reported by
`undefined_function`. -/
def ScalarValue.typeName : ScalarValue → String
  | .number _ => "NUMBER"
  | .string _ => "STRING"
  | .bool _ => "BOOL"

/-- Modelled from the spec: for bitwise operators a number with a fractional
part is reported as `FLOAT` (scenario `20.1 & 5.2` →
`undefined_function("&", "FLOAT", "FLOAT")`). -/
def ScalarValue.bitwiseTypeName : ScalarValue → String
  | .number q => if q.den = 1 then "NUMBER" else "FLOAT"
  | .string _ => "STRING"
  | .bool _ => "BOOL"

/-- Truncated remainder on rationals, the `BigDecimal` `%` semantics
(`20 % 3 = 2`). -/
def ratRem (a b : ℚ) : ℚ :=
  a - b * (Int.tdiv (a / b).num (a / b).den : ℤ)

/-- Modelled from the spec: application of one binary operator to two reduced
operands, per the typing table of §4.6. -/
def evalBinaryOp (op : BinaryOp) (l r : ScalarValue) :
    Except QueryError ScalarValue :=
  match op with
  | .concat =>
    match l, r with
    | .string a, .string b => .ok (.string (a ++ b))
    | _, _ => .error (.undefinedFunction "||" l.typeName r.typeName)
  | .add =>
    match l, r with
    | .number a, .number b => .ok (.number (a + b))
    | _, _ => .error (.undefinedFunction "+" l.typeName r.typeName)
  | .sub =>
    match l, r with
    | .number a, .number b => .ok (.number (a - b))
    | _, _ => .error (.undefinedFunction "-" l.typeName r.typeName)
  | .mul =>
    match l, r with
    | .number a, .number b => .ok (.number (a * b))
    | _, _ => .error (.undefinedFunction "*" l.typeName r.typeName)
  | .div =>
    match l, r with
    | .number a, .number b =>
      if b = 0 then .error .divisionByZero else .ok (.number (a / b))
    | _, _ => .error (.undefinedFunction "/" l.typeName r.typeName)
  | .mod =>
    match l, r with
    | .number a, .number b =>
      if b = 0 then .error .divisionByZero else .ok (.number (ratRem a b))
    | _, _ => .error (.undefinedFunction "%" l.typeName r.typeName)
  | .bitwiseAnd =>
    match l, r with
    | .number a, .number b =>
      if a.den = 1 ∧ b.den = 1 then .ok (.number ((Int.land a.num b.num : ℤ) : ℚ))
      else .error (.undefinedFunction "&" l.bitwiseTypeName r.bitwiseTypeName)
    | _, _ => .error (.undefinedFunction "&" l.typeName r.typeName)
  | .bitwiseOr =>
    match l, r with
    | .number a, .number b =>
      if a.den = 1 ∧ b.den = 1 then .ok (.number ((Int.lor a.num b.num : ℤ) : ℚ))
      else .error (.undefinedFunction "|" l.bitwiseTypeName r.bitwiseTypeName)
    | _, _ => .error (.undefinedFunction "|" l.typeName r.typeName)

/-- A row datum as handed to the evaluator (`Datum::from_i16` in the tests),
projected to a scalar value. -/
def datumToScalarValue : Datum → ScalarValue
  | .u64 n => .number n
  | .i16 n => .number n

/-- Modelled from the spec: reduction of a scalar expression tree against a
row and a column-name→ordinal map, producing a reduced value or the first
error. -/
def evalScalar (columns : List (String × Nat)) (row : List Datum) :
    ScalarOp → Except QueryError ScalarValue
  | .column name =>
    match dashGet columns name with
    | some i =>
      match row.get? i with
      | some d => .ok (datumToScalarValue d)
      | none => .error (.columnDoesNotExist name)
    | none => .error (.columnDoesNotExist name)
  | .value v => .ok v
  | .binary op lhs rhs => do
    let lv ← evalScalar columns row lhs
    let rv ← evalScalar columns row rhs
    evalBinaryOp op lv rv

/-- The evaluator's entry point `DynamicExpressionEvaluation::eval`: a
successful reduction is wrapped back as `ScalarOp::Value`. -/
def dynamicEval (columns : List (String × Nat)) (row : List Datum)
    (op : ScalarOp) : Except QueryError ScalarOp :=
  (evalScalar columns row op).map .value

/-! ## Order lemmas for byte sequences -/

theorem natCompare_div_mod (q a b : Nat) (hq : 0 < q) :
    compare a b =
      (match compare (a / q) (b / q) with
        | .eq => compare (a % q) (b % q)
        | o => o) := by
  have ha := Nat.div_add_mod a q
  have hb := Nat.div_add_mod b q
  have ham : a % q < q := Nat.mod_lt _ hq
  have hbm : b % q < q := Nat.mod_lt _ hq
  rcases Nat.lt_trichotomy (a / q) (b / q) with h | h | h
  · have hmul : q * (a / q) + q ≤ q * (b / q) := by
      have := Nat.mul_le_mul_left q (Nat.succ_le_of_lt h)
      simpa [Nat.mul_succ] using this
    have hab : a < b := by omega
    rw [Nat.compare_eq_lt.mpr h, Nat.compare_eq_lt.mpr hab]
  · have hqq : q * (a / q) = q * (b / q) := by rw [h]
    rw [Nat.compare_eq_eq.mpr h]
    rcases Nat.lt_trichotomy (a % q) (b % q) with h2 | h2 | h2
    · have hab : a < b := by omega
      rw [Nat.compare_eq_lt.mpr hab, Nat.compare_eq_lt.mpr h2]
    · have hab : a = b := by omega
      rw [Nat.compare_eq_eq.mpr hab, Nat.compare_eq_eq.mpr h2]
    · have hab : b < a := by omega
      rw [Nat.compare_eq_gt.mpr hab, Nat.compare_eq_gt.mpr h2]
  · have hmul : q * (b / q) + q ≤ q * (a / q) := by
      have := Nat.mul_le_mul_left q (Nat.succ_le_of_lt h)
      simpa [Nat.mul_succ] using this
    have hab : b < a := by omega
    rw [Nat.compare_eq_gt.mpr h, Nat.compare_eq_gt.mpr hab]

theorem beBytes_cmp : ∀ (w a b : Nat), a < 256 ^ w → b < 256 ^ w →
    binCmp (beBytes w a) (beBytes w b) = compare a b := by
  intro w
  induction w with
  | zero =>
    intro a b ha hb
    interval_cases a
    interval_cases b
    rfl
  | succ w ih =>
    intro a b _ _
    have hq : 0 < 256 ^ w := Nat.pos_pow_of_pos _ (by norm_num)
    have hma : a % 256 ^ w < 256 ^ w := Nat.mod_lt _ hq
    have hmb : b % 256 ^ w < 256 ^ w := Nat.mod_lt _ hq
    rw [natCompare_div_mod (256 ^ w) a b hq]
    show binCmp (a / 256 ^ w :: beBytes w (a % 256 ^ w))
        (b / 256 ^ w :: beBytes w (b % 256 ^ w)) = _
    unfold binCmp
    rcases hcmp : compare (a / 256 ^ w) (b / 256 ^ w) with _ | _ | _ <;>
      simp [hcmp, ih _ _ hma hmb]

theorem packKey_def (i : Nat) : packKey i = 8 :: beBytes 8 i := by
  simp [packKey, Binary.pack]

theorem packKey_cmp (a b : Nat) (ha : a < 2 ^ 64) (hb : b < 2 ^ 64) :
    binCmp (packKey a) (packKey b) = compare a b := by
  have h : (2 : Nat) ^ 64 = 256 ^ 8 := by norm_num
  rw [packKey_def, packKey_def]
  unfold binCmp
  have h8 : compare 8 8 = Ordering.eq := Nat.compare_eq_eq.mpr rfl
  simp only [h8]
  exact beBytes_cmp 8 a b (h ▸ ha) (h ▸ hb)

theorem binCmp_eq_iff : ∀ (a b : List Nat), binCmp a b = .eq ↔ a = b := by
  intro a
  induction a with
  | nil => intro b; cases b <;> simp [binCmp]
  | cons x xs ih =>
    intro b
    cases b with
    | nil => simp [binCmp]
    | cons y ys =>
      show (match compare x y with
        | .eq => binCmp xs ys
        | o => o) = .eq ↔ _
      rcases Nat.lt_trichotomy x y with h | h | h
      · rw [Nat.compare_eq_lt.mpr h]
        simp
        intro he
        omega
      · rw [Nat.compare_eq_eq.mpr h, h]
        simp [ih]
      · rw [Nat.compare_eq_gt.mpr h]
        simp
        intro he
        omega

theorem binCmp_lt_asymm : ∀ (a b : List Nat), binCmp a b = .lt → binCmp b a = .gt := by
  intro a
  induction a with
  | nil => intro b; cases b <;> simp [binCmp]
  | cons x xs ih =>
    intro b
    cases b with
    | nil => simp [binCmp]
    | cons y ys =>
      show (match compare x y with
          | .eq => binCmp xs ys
          | o => o) = .lt →
        (match compare y x with
          | .eq => binCmp ys xs
          | o => o) = .gt
      rcases Nat.lt_trichotomy x y with h | h | h
      · rw [Nat.compare_eq_lt.mpr h, Nat.compare_eq_gt.mpr h]
        intro
        rfl
      · rw [Nat.compare_eq_eq.mpr h, Nat.compare_eq_eq.mpr h.symm]
        exact ih ys
      · rw [Nat.compare_eq_gt.mpr h, Nat.compare_eq_lt.mpr h]
        intro hc
        exact absurd hc (by simp)

/-! ## Lemmas about the record map -/

theorem mem_recordsFrom {p : List Nat × List Nat} :
    ∀ (vs : List (List Nat)) (s : Nat), p ∈ recordsFrom s vs →
      ∃ j, j < vs.length ∧ p.1 = packKey (s + j) := by
  intro vs
  induction vs with
  | nil => intro s h; simp [recordsFrom] at h
  | cons v vs ih =>
    intro s h
    rw [recordsFrom] at h
    rcases List.mem_cons.mp h with h | h
    · exact ⟨0, by simp, by simp [h]⟩
    · obtain ⟨j, hj, hk⟩ := ih (s + 1) h
      exact ⟨j + 1, by simpa using hj, by rw [hk]; ring_nf⟩

theorem recordsFrom_append :
    ∀ (xs : List (List Nat)) (s : Nat) (v : List Nat),
      recordsFrom s (xs ++ [v]) = recordsFrom s xs ++ [(packKey (s + xs.length), v)] := by
  intro xs
  induction xs with
  | nil => intro s v; simp [recordsFrom]
  | cons x xs ih =>
    intro s v
    show (packKey s, x) :: recordsFrom (s + 1) (xs ++ [v]) = _
    rw [ih]
    simp [recordsFrom]
    ring_nf

theorem btreeInsert_append (k v : List Nat) :
    ∀ (l : List (List Nat × List Nat)), (∀ p ∈ l, binCmp k p.1 = .gt) →
      btreeInsert k v l = l ++ [(k, v)] := by
  intro l
  induction l with
  | nil => intro _; rfl
  | cons hd tl ih =>
    intro h
    have hh : binCmp k hd.1 = .gt := h hd (by simp)
    show (match binCmp k hd.1 with
        | .lt => (k, v) :: hd :: tl
        | .eq => (k, v) :: tl
        | .gt => hd :: btreeInsert k v tl) = _
    rw [hh]
    simp only [List.cons_append, List.cons.injEq, true_and]
    exact ih fun p hp => h p (by simp [hp])

theorem recLookup_btreeInsert (k v k' : List Nat) :
    ∀ (l : List (List Nat × List Nat)),
      recLookup (btreeInsert k v l) k' = if k' = k then some v else recLookup l k' := by
  intro l
  induction l with
  | nil =>
    show (if binCmp k' k = .eq then some v else none) = _
    by_cases h : k' = k <;> simp [h, binCmp_eq_iff, recLookup]
  | cons hd tl ih =>
    show recLookup
        (match binCmp k hd.1 with
          | .lt => (k, v) :: hd :: tl
          | .eq => (k, v) :: tl
          | .gt => hd :: btreeInsert k v tl) k' = _
    rcases hc : binCmp k hd.1 with _ | _ | _
    · show (if binCmp k' k = .eq then some v else recLookup (hd :: tl) k') = _
      by_cases h : k' = k <;> simp [h, binCmp_eq_iff]
    · have hk : k = hd.1 := (binCmp_eq_iff _ _).mp hc
      show (if binCmp k' k = .eq then some v else recLookup tl k') = _
      by_cases h : k' = k
      · simp [h, binCmp_eq_iff]
      · have h2 : ¬ binCmp k' k = .eq := by simpa [binCmp_eq_iff]
        simp only [if_neg h2, if_neg h]
        show recLookup tl k' = recLookup (hd :: tl) k'
        have h3 : ¬ binCmp k' hd.1 = .eq := by rw [← hk]; exact h2
        show recLookup tl k' = if binCmp k' hd.1 = .eq then some hd.2 else recLookup tl k'
        rw [if_neg h3]
    · have hk : ¬ k = hd.1 := by
        intro he
        rw [(binCmp_eq_iff k hd.1).mpr he] at hc
        exact absurd hc (by simp)
      show (if binCmp k' hd.1 = .eq then some hd.2 else recLookup (btreeInsert k v tl) k') = _
      by_cases h : k' = k
      · have h3 : ¬ binCmp k' hd.1 = .eq := by
          rw [h]
          simpa [binCmp_eq_iff]
        rw [if_neg h3, ih, if_pos h, if_pos h]
      · rw [ih, if_neg h]
        by_cases h4 : binCmp k' hd.1 = .eq
        · simp [recLookup, h4, h]
        · simp [recLookup, h4, h]

theorem btreeInsert_keys_of_mem (k v : List Nat) :
    ∀ (l : List (List Nat × List Nat)), SortedRecs l → k ∈ l.map Prod.fst →
      (btreeInsert k v l).map Prod.fst = l.map Prod.fst := by
  intro l
  induction l with
  | nil => intro _ hmem; simp at hmem
  | cons hd tl ih =>
    intro hsorted hmem
    obtain ⟨k0, v0⟩ := hd
    have hpw := hsorted
    unfold SortedRecs at hpw
    rw [List.map_cons, List.pairwise_cons] at hpw
    obtain ⟨hhd, htl⟩ := hpw
    rcases hc : binCmp k k0 with _ | _ | _
    · exfalso
      rcases List.mem_cons.mp hmem with he | hm
      · rw [(binCmp_eq_iff k k0).mpr he] at hc
        exact absurd hc (by simp)
      · have := binCmp_lt_asymm _ _ (hhd k hm)
        rw [hc] at this
        exact absurd this (by simp)
    · have hk : k = k0 := (binCmp_eq_iff _ _).mp hc
      simp only [btreeInsert, hc]
      simp [hk]
    · have hk : ¬ k = k0 := by
        intro he
        rw [(binCmp_eq_iff k k0).mpr he] at hc
        exact absurd hc (by simp)
      have hm : k ∈ tl.map Prod.fst := by
        rcases List.mem_cons.mp hmem with he | hm
        · exact absurd he hk
        · exact hm
      simp only [btreeInsert, hc]
      rw [List.map_cons, List.map_cons, ih htl hm]

theorem recordsFrom_key_lt (s : Nat) :
    ∀ (vs : List (List Nat)), s + vs.length < 2 ^ 64 →
      ∀ b ∈ (recordsFrom (s + 1) vs).map Prod.fst, binCmp (packKey s) b = .lt := by
  intro vs hlen b hb
  obtain ⟨p, hp, rfl⟩ := List.mem_map.mp hb
  obtain ⟨j, hj, hk⟩ := mem_recordsFrom vs (s + 1) hp
  rw [hk]
  rw [packKey_cmp s (s + 1 + j) (by omega) (by omega)]
  exact Nat.compare_eq_lt.mpr (by omega)

theorem sortedRecs_recordsFrom :
    ∀ (vs : List (List Nat)) (s : Nat), s + vs.length ≤ 2 ^ 64 →
      SortedRecs (recordsFrom s vs) := by
  intro vs
  induction vs with
  | nil => intro s _; simp [recordsFrom, SortedRecs]
  | cons v vs ih =>
    intro s hlen
    unfold SortedRecs
    rw [recordsFrom, List.map_cons, List.pairwise_cons]
    have hlen' : s + vs.length < 2 ^ 64 := by simp at hlen; omega
    refine ⟨recordsFrom_key_lt s vs hlen', ih (s + 1) (by simp at hlen; omega)⟩

theorem insertLoop_cons (st : TableState) (v : List Nat) (rest : List (List Nat)) :
    insertLoop st (v :: rest) =
      insertLoop
        ⟨btreeInsert (Binary.pack [Datum.u64 st.recordIds]) v st.records,
          (st.recordIds + 1) % 2 ^ 64, st.columnOrds⟩ rest := by
  simp only [insertLoop, List.foldl_cons]

theorem insertLoop_from (c : Nat) :
    ∀ (batch vs : List (List Nat)), vs.length + batch.length < 2 ^ 64 →
      insertLoop ⟨recordsFrom 0 vs, vs.length, c⟩ batch =
        ⟨recordsFrom 0 (vs ++ batch), vs.length + batch.length, c⟩ := by
  intro batch
  induction batch with
  | nil => intro vs _; simp [insertLoop]
  | cons v rest ih =>
    intro vs hlen
    have hrec : btreeInsert (Binary.pack [Datum.u64 vs.length]) v (recordsFrom 0 vs) =
        recordsFrom 0 (vs ++ [v]) := by
      rw [show Binary.pack [Datum.u64 vs.length] = packKey vs.length from rfl]
      rw [btreeInsert_append (packKey vs.length) v (recordsFrom 0 vs) ?bound]
      · rw [recordsFrom_append]
        simp
      case bound =>
        intro p hp
        obtain ⟨j, hj, hk⟩ := mem_recordsFrom vs 0 hp
        rw [hk]
        rw [packKey_cmp vs.length (0 + j) (by simp at hlen ⊢; omega) (by omega)]
        exact Nat.compare_eq_gt.mpr (by omega)
    have hmod : (vs.length + 1) % 2 ^ 64 = vs.length + 1 :=
      Nat.mod_eq_of_lt (by simp at hlen; omega)
    rw [insertLoop_cons]
    simp only [hrec, hmod]
    have ih' := ih (vs ++ [v]) (by simp at hlen ⊢; omega)
    rw [List.length_append, List.length_cons, List.length_nil] at ih'
    rw [ih']
    rw [List.append_assoc]
    simp only [List.singleton_append, List.length_cons, TableState.mk.injEq]
    and_intros <;> first | trivial | omega

theorem applyInserts_from (c : Nat) :
    ∀ (batches : List (List (List Nat))) (vs : List (List Nat)),
      vs.length + batches.flatten.length < 2 ^ 64 →
      applyInserts ⟨recordsFrom 0 vs, vs.length, c⟩ batches =
        (⟨recordsFrom 0 (vs ++ batches.flatten), vs.length + batches.flatten.length, c⟩,
          batches.map List.length) := by
  intro batches
  induction batches with
  | nil => intro vs _; simp [applyInserts]
  | cons b bs ih =>
    intro vs hlen
    simp only [applyInserts, TableState.insert]
    rw [insertLoop_from c b vs (by simp at hlen; omega)]
    have ih' := ih (vs ++ b) (by simp at hlen ⊢; omega)
    rw [List.length_append] at ih'
    rw [ih']
    simp only [List.flatten_cons, List.map_cons, Prod.mk.injEq, TableState.mk.injEq,
      List.length_append, List.append_assoc]
    and_intros <;> first | trivial | omega

theorem updateFold_counters (st : TableState) (data : List (List Nat × List Nat)) :
    (st.update data).1.recordIds = st.recordIds ∧
      (st.update data).1.columnOrds = st.columnOrds := by
  simp [TableState.update]

theorem updateFold_spec :
    ∀ (data : List (List Nat × List Nat)) (recs : List (List Nat × List Nat)),
      SortedRecs recs →
      (∀ kv ∈ data, kv.1 ∈ recs.map Prod.fst) →
      (data.map Prod.fst).Nodup →
      ((updateFold data recs).map Prod.fst = recs.map Prod.fst) ∧
        (∀ kv ∈ data, recLookup (updateFold data recs) kv.1 = some kv.2) ∧
        (∀ k, k ∉ data.map Prod.fst → recLookup (updateFold data recs) k = recLookup recs k) := by
  intro data
  induction data with
  | nil => intro recs _ _ _; exact ⟨rfl, by simp, fun k _ => rfl⟩
  | cons kv ds ih =>
    intro recs hsorted hkeys hnodup
    obtain ⟨k0, v0⟩ := kv
    have hfold : updateFold ((k0, v0) :: ds) recs = updateFold ds (btreeInsert k0 v0 recs) := by
      rw [updateFold, updateFold, List.foldl_cons]
    have hk0mem : k0 ∈ recs.map Prod.fst := hkeys (k0, v0) (by simp)
    have hkeys1 : (btreeInsert k0 v0 recs).map Prod.fst = recs.map Prod.fst :=
      btreeInsert_keys_of_mem k0 v0 recs hsorted hk0mem
    have hsorted1 : SortedRecs (btreeInsert k0 v0 recs) := by
      unfold SortedRecs
      rw [hkeys1]
      exact hsorted
    have hkeysds : ∀ kv ∈ ds, kv.1 ∈ (btreeInsert k0 v0 recs).map Prod.fst := by
      intro kv hkv
      rw [hkeys1]
      exact hkeys kv (by simp [hkv])
    have hnodup1 : (ds.map Prod.fst).Nodup := by
      rw [List.map_cons] at hnodup
      exact hnodup.of_cons
    have hk0not : k0 ∉ ds.map Prod.fst := by
      rw [List.map_cons] at hnodup
      exact (List.nodup_cons.mp hnodup).1
    obtain ⟨ihA, ihB, ihC⟩ := ih (btreeInsert k0 v0 recs) hsorted1 hkeysds hnodup1
    refine ⟨?_, ?_, ?_⟩
    · rw [hfold, ihA, hkeys1]
    · intro kv hkv
      rcases List.mem_cons.mp hkv with he | hm
      · rw [he, hfold, ihC k0 hk0not, recLookup_btreeInsert, if_pos rfl]
      · rw [hfold]
        exact ihB kv hm
    · intro k hk
      rw [List.map_cons, List.mem_cons] at hk
      push_neg at hk
      rw [hfold, ihC k hk.2, recLookup_btreeInsert, if_neg hk.1]

/-! ## Claim theorems -/

/-- C4: for every `SqlType t`,
`SqlType::from_type_id(t.type_id(), t.chars_len().unwrap_or(0))` equals `t`;
the `(type_id, chars_len)` encoding round-trips for all eight variants,
including `Char` and `VarChar` with arbitrary lengths. -/
theorem sqlType_from_type_id_round_trip (t : SqlType) :
    SqlType.fromTypeId t.typeId (t.charsLen.getD 0) = some t := by
  cases t <;> rfl

/-- C1: for every sequence of value vectors inserted (in one or several
`insert` calls) into a freshly created in-memory table, `select()` returns
exactly the pairs `[(pack(i-1), v_i)]` in key order; record-ids come from a
monotonically increasing counter starting at 0 (so keys never collide), and
each `insert` call returns the number of values it was passed. The count
bound reflects the 64-bit record-id counter. -/
theorem insert_select_spec (batches : List (List (List Nat)))
    (h : batches.flatten.length < 2 ^ 64) :
    (applyInserts TableState.fresh batches).1.select = recordsFrom 0 batches.flatten ∧
      SortedRecs (applyInserts TableState.fresh batches).1.select ∧
      (applyInserts TableState.fresh batches).2 = batches.map List.length ∧
      (applyInserts TableState.fresh batches).1.recordIds = batches.flatten.length := by
  have happ : applyInserts TableState.fresh batches =
      (⟨recordsFrom 0 batches.flatten, batches.flatten.length, 0⟩,
        batches.map List.length) := by
    have := applyInserts_from 0 batches [] (by simpa using h)
    simpa using this
  refine ⟨by simp [TableState.select, happ], ?_, by simp [happ], by simp [happ]⟩
  simp only [happ, TableState.select]
  exact sortedRecs_recordsFrom _ 0 (by omega)

/-- C1 witness: two insert calls, one value then two values, into a fresh
table. -/
theorem insert_select_spec_witness :
    ([[[1]], [[2], [3]]] : List (List (List Nat))).flatten.length < 2 ^ 64 ∧
      ((applyInserts TableState.fresh [[[1]], [[2], [3]]]).1.select
          = recordsFrom 0 ([[[1]], [[2], [3]]] : List (List (List Nat))).flatten ∧
        SortedRecs (applyInserts TableState.fresh [[[1]], [[2], [3]]]).1.select ∧
        (applyInserts TableState.fresh [[[1]], [[2], [3]]]).2
          = ([[[1]], [[2], [3]]] : List (List (List Nat))).map List.length ∧
        (applyInserts TableState.fresh [[[1]], [[2], [3]]]).1.recordIds
          = ([[[1]], [[2], [3]]] : List (List (List Nat))).flatten.length) :=
  ⟨by decide, insert_select_spec [[[1]], [[2], [3]]] (by decide)⟩

/-- C2: for every catalog state and every storage operation addressed
through the nested `work_with` calls, a missing schema yields `None`, a
missing table inside an existing schema yields `Some(None)`, and when both
exist the result is `Some(Some(r))` with `r` the operation's result. -/
theorem work_with_nesting {α : Type} (c : CatalogState) (sn tn : String)
    (op : TableState → α) :
    (dashGet c.schemas sn = none → nestedWorkWith c sn tn op = none) ∧
      (∀ s, dashGet c.schemas sn = some s → dashGet s.tables tn = none →
        nestedWorkWith c sn tn op = some none) ∧
      (∀ s t, dashGet c.schemas sn = some s → dashGet s.tables tn = some t →
        nestedWorkWith c sn tn op = some (some (op t))) := by
  refine ⟨?_, ?_, ?_⟩
  · intro h
    simp [nestedWorkWith, CatalogState.workWith, h]
  · intro s hs ht
    simp [nestedWorkWith, CatalogState.workWith, SchemaState.workWith, hs, ht]
  · intro s t hs ht
    simp [nestedWorkWith, CatalogState.workWith, SchemaState.workWith, hs, ht]

/-- C2 witness: a catalog holding schema `s` with table `t`, probed with the
`select` operation at a missing schema, a missing table, and the existing
pair. -/
theorem work_with_nesting_witness :
    nestedWorkWith ⟨[("s", ⟨[("t", TableState.fresh)]⟩)]⟩ "x" "t" TableState.select = none ∧
      nestedWorkWith ⟨[("s", ⟨[("t", TableState.fresh)]⟩)]⟩ "s" "u" TableState.select
        = some none ∧
      nestedWorkWith ⟨[("s", ⟨[("t", TableState.fresh)]⟩)]⟩ "s" "t" TableState.select
        = some (some (TableState.select TableState.fresh)) :=
  ⟨(work_with_nesting ⟨[("s", ⟨[("t", TableState.fresh)]⟩)]⟩ "x" "t" TableState.select).1 rfl,
    (work_with_nesting ⟨[("s", ⟨[("t", TableState.fresh)]⟩)]⟩ "s" "u" TableState.select).2.1
      _ rfl rfl,
    (work_with_nesting ⟨[("s", ⟨[("t", TableState.fresh)]⟩)]⟩ "s" "t" TableState.select).2.2
      _ _ rfl rfl⟩

/-- C3: for every list of key/value pairs passed to `update` on an
in-memory table whose keys all already exist in the (key-sorted) table,
`update` replaces each listed key's value, leaves every other record and
both counters unchanged, keeps the key set intact, and returns the length
of the list. -/
theorem update_replaces (st : TableState) (data : List (List Nat × List Nat))
    (hsorted : SortedRecs st.records)
    (hkeys : ∀ kv ∈ data, kv.1 ∈ st.records.map Prod.fst)
    (hnodup : (data.map Prod.fst).Nodup) :
    (st.update data).2 = data.length ∧
      ((st.update data).1.records.map Prod.fst = st.records.map Prod.fst) ∧
      (∀ kv ∈ data, recLookup (st.update data).1.records kv.1 = some kv.2) ∧
      (∀ k, k ∉ data.map Prod.fst →
        recLookup (st.update data).1.records k = recLookup st.records k) ∧
      (st.update data).1.recordIds = st.recordIds ∧
      (st.update data).1.columnOrds = st.columnOrds := by
  obtain ⟨hA, hB, hC⟩ := updateFold_spec data st.records hsorted hkeys hnodup
  exact ⟨rfl, hA, hB, hC, rfl, rfl⟩

/-- C3 witness: insert values `[10], [20]` into a fresh table, then update
the key `pack(1)` to the value `[40]`. -/
theorem update_replaces_witness :
    SortedRecs (TableState.insert TableState.fresh [[10], [20]]).1.records ∧
      (∀ kv ∈ [(packKey 1, [40])],
        kv.1 ∈ (TableState.insert TableState.fresh [[10], [20]]).1.records.map Prod.fst) ∧
      (([(packKey 1, [40])].map Prod.fst).Nodup) ∧
      (((TableState.insert TableState.fresh [[10], [20]]).1.update
          [(packKey 1, [40])]).2 = [(packKey 1, [40])].length ∧
        (((TableState.insert TableState.fresh [[10], [20]]).1.update
            [(packKey 1, [40])]).1.records.map Prod.fst
          = (TableState.insert TableState.fresh [[10], [20]]).1.records.map Prod.fst) ∧
        (∀ kv ∈ [(packKey 1, [40])],
          recLookup (((TableState.insert TableState.fresh [[10], [20]]).1.update
            [(packKey 1, [40])]).1.records) kv.1 = some kv.2) ∧
        (∀ k, k ∉ [(packKey 1, [40])].map Prod.fst →
          recLookup (((TableState.insert TableState.fresh [[10], [20]]).1.update
              [(packKey 1, [40])]).1.records) k
            = recLookup (TableState.insert TableState.fresh [[10], [20]]).1.records k) ∧
        ((TableState.insert TableState.fresh [[10], [20]]).1.update
            [(packKey 1, [40])]).1.recordIds
          = (TableState.insert TableState.fresh [[10], [20]]).1.recordIds ∧
        ((TableState.insert TableState.fresh [[10], [20]]).1.update
            [(packKey 1, [40])]).1.columnOrds
          = (TableState.insert TableState.fresh [[10], [20]]).1.columnOrds) :=
  ⟨by decide, by decide, by decide,
    update_replaces (TableState.insert TableState.fresh [[10], [20]]).1
      [(packKey 1, [40])] (by decide) (by decide) (by decide)⟩

/-- C5 counterexample: when `data_manager.drop_table` fails (the table is
missing), `DropTableCommand::execute` still sends `TableDropped` — and only
`TableDropped`; the claimed `TableDoesNotExist` error is never emitted (the
failure is merely logged). -/
theorem dropTable_missing_emits_tableDropped :
    dropTableExecute (Except.error ()) = ([Except.ok QueryEvent.tableDropped], true) ∧
      (dropTableExecute (Except.error ())).1.all
        (fun m => match m with | .ok _ => true | .error _ => false) = true := by
  exact ⟨rfl, rfl⟩

/-- C5 (amended): executing a DropTable plan sends exactly one event per
command, and it is always `TableDropped`, whether or not the drop
succeeded; a failed drop is only logged. -/
theorem dropTable_always_emits_tableDropped (r : Except Unit Unit) :
    (dropTableExecute r).1 = [Except.ok QueryEvent.tableDropped] := by
  cases r <;> rfl

/-- C6 counterexample: a Bind whose raw-parameter count (0) differs from the
prepared statement's declared parameter-type count (1) sends the
`protocol_violation` error but is not aborted: the bind proceeds, the
portal is stored and `BindComplete` is also sent. -/
theorem bind_mismatch_counterexample :
    (executeBind ⟨[("s", ⟨Statement.setVariable "a" "b", [PgType.integer], []⟩)], []⟩
        ⟨"p", "s", [], [], []⟩).2 =
      [Except.error (QueryError.protocolViolation
          ("Bind message supplies " ++ toString (0 : Nat) ++
            " parameters, but prepared statement " ++ "s" ++ " requires " ++
            toString (1 : Nat))),
        Except.ok QueryEvent.bindComplete] ∧
      dashGet (executeBind ⟨[("s", ⟨Statement.setVariable "a" "b", [PgType.integer], []⟩)], []⟩
          ⟨"p", "s", [], [], []⟩).1.portals "p" =
        some ("s", Statement.setVariable "a" "b", []) := by
  exact ⟨rfl, rfl⟩

/-- C6 (amended): on a parameter-count mismatch the session emits a
`protocol_violation` first, but the command is not aborted: binding
continues, and whenever `bind_prepared_statement_to_portal` succeeds the
portal is stored and `BindComplete` is emitted after the error. -/
theorem bind_param_mismatch_continues (session : SessionState) (args : BindArgs)
    (ps : PreparedStatement)
    (hps : dashGet session.preparedStatements args.statementName = some ps)
    (hmis : ps.paramTypes.length ≠ args.rawParams.length) :
    ∃ msg,
      (executeBind session args).2.head? =
          some (Except.error (QueryError.protocolViolation msg)) ∧
        ∀ newStmt rf,
          bindToPortal ps args.paramFormats args.rawParams args.resultFormats =
              Except.ok (newStmt, rf) →
            (executeBind session args).2 =
                [Except.error (QueryError.protocolViolation msg),
                  Except.ok QueryEvent.bindComplete] ∧
              dashGet (executeBind session args).1.portals args.portalName =
                some (args.statementName, newStmt, rf) := by
  refine ⟨"Bind message supplies " ++ toString args.rawParams.length ++
      " parameters, but prepared statement " ++ args.statementName ++
      " requires " ++ toString ps.paramTypes.length, ?_, ?_⟩
  · simp only [executeBind, hps]
    cases hb : bindToPortal ps args.paramFormats args.rawParams args.resultFormats with
    | error msgs => simp [hmis]
    | ok res => simp [hmis]
  · intro newStmt rf hb
    simp only [executeBind, hps, hb]
    simp [hmis, dashGet]

/-- C6 witness for the amended theorem: the concrete mismatching Bind of
the counterexample. -/
theorem bind_param_mismatch_continues_witness :
    dashGet (⟨[("s", ⟨Statement.setVariable "a" "b", [PgType.integer], []⟩)],
          []⟩ : SessionState).preparedStatements "s" =
        some ⟨Statement.setVariable "a" "b", [PgType.integer], []⟩ ∧
      (⟨Statement.setVariable "a" "b", [PgType.integer],
          []⟩ : PreparedStatement).paramTypes.length ≠
        ([] : List (Option (List Nat))).length ∧
      ∃ msg,
        (executeBind ⟨[("s", ⟨Statement.setVariable "a" "b", [PgType.integer], []⟩)], []⟩
              ⟨"p", "s", [], [], []⟩).2.head? =
            some (Except.error (QueryError.protocolViolation msg)) ∧
          ∀ newStmt rf,
            bindToPortal ⟨Statement.setVariable "a" "b", [PgType.integer], []⟩ [] [] [] =
                Except.ok (newStmt, rf) →
              (executeBind ⟨[("s", ⟨Statement.setVariable "a" "b", [PgType.integer], []⟩)], []⟩
                    ⟨"p", "s", [], [], []⟩).2 =
                  [Except.error (QueryError.protocolViolation msg),
                    Except.ok QueryEvent.bindComplete] ∧
                dashGet (executeBind
                      ⟨[("s", ⟨Statement.setVariable "a" "b", [PgType.integer], []⟩)], []⟩
                      ⟨"p", "s", [], [], []⟩).1.portals "p" =
                  some ("s", newStmt, rf) :=
  ⟨rfl, by decide,
    bind_param_mismatch_continues
      ⟨[("s", ⟨Statement.setVariable "a" "b", [PgType.integer], []⟩)], []⟩
      ⟨"p", "s", [], [], []⟩
      ⟨Statement.setVariable "a" "b", [PgType.integer], []⟩ rfl (by decide)⟩

/-- C7: the expression evaluator concatenates `"str-1" || "str-2"` to
`"str-1str-2"`, rejects `"str-1" + "str-2"` with
`undefined_function("+", "STRING", "STRING")`, rejects `20.1 & 5.2` with
`undefined_function("&", "FLOAT", "FLOAT")`, and evaluates `20 % 3` to the
number `2` (row and column map as in the evaluator's tests). -/
theorem evaluator_typing_scenarios :
    dynamicEval [("name", 0)] [Datum.i16 10]
        (.binary .concat (.value (.string "str-1")) (.value (.string "str-2")))
      = .ok (.value (.string "str-1str-2")) ∧
      dynamicEval [("name", 0)] [Datum.i16 10]
          (.binary .add (.value (.string "str-1")) (.value (.string "str-2")))
        = .error (.undefinedFunction "+" "STRING" "STRING") ∧
      dynamicEval [("name", 0)] [Datum.i16 10]
          (.binary .bitwiseAnd (.value (.number (201 / 10))) (.value (.number (26 / 5))))
        = .error (.undefinedFunction "&" "FLOAT" "FLOAT") ∧
      dynamicEval [("name", 0)] [Datum.i16 10]
          (.binary .mod (.value (.number 20)) (.value (.number 3)))
        = .ok (.value (.number 2)) := by
  refine ⟨rfl, rfl, ?_, ?_⟩
  · have h1 : (201 / 10 : ℚ).den = 10 := by norm_num
    have h2 : (26 / 5 : ℚ).den = 5 := by norm_num
    have e1 : evalBinaryOp .bitwiseAnd (.number (201 / 10 : ℚ)) (.number (26 / 5 : ℚ))
        = .error (.undefinedFunction "&" "FLOAT" "FLOAT") := by
      simp [evalBinaryOp, ScalarValue.bitwiseTypeName, h1, h2]
    show (evalBinaryOp BinaryOp.bitwiseAnd (ScalarValue.number (201 / 10 : ℚ))
        (ScalarValue.number (26 / 5 : ℚ))).map ScalarOp.value
      = Except.error (QueryError.undefinedFunction "&" "FLOAT" "FLOAT")
    rw [e1]
    rfl
  · have h3 : ((20 : ℚ) / 3).num = 20 := by norm_num
    have h4 : ((20 : ℚ) / 3).den = 3 := by norm_num
    have h6 : Int.tdiv 20 3 = 6 := by decide
    have e2 : evalBinaryOp .mod (.number (20 : ℚ)) (.number (3 : ℚ))
        = .ok (.number 2) := by
      simp [evalBinaryOp, ratRem, h3, h4, h6]
      norm_num
    show (evalBinaryOp BinaryOp.mod (ScalarValue.number (20 : ℚ))
        (ScalarValue.number (3 : ℚ))).map ScalarOp.value
      = Except.ok (ScalarOp.value (ScalarValue.number 2))
    rw [e2]
    rfl

/-- C8: describing an INSERT resolves the qualified name against the
metadata: a missing schema yields `schema_does_not_exist` with the schema
name, a missing table yields `table_does_not_exist` with the dotted
qualified name, and when both exist the description is
`Insert { table_id, sql_types }` with the column types in ordinal order. -/
theorem describe_insert_spec (md : Metadata) (sn tn : String) :
    (dashGet md.schemas sn = none →
      Analyzer.describe md (.insert sn tn) = .err (.schemaDoesNotExist sn)) ∧
      (∀ sch, dashGet md.schemas sn = some sch → dashGet sch.tables tn = none →
        Analyzer.describe md (.insert sn tn) =
          .err (.tableDoesNotExist (sn ++ "." ++ tn))) ∧
      (∀ sch t, dashGet md.schemas sn = some sch → dashGet sch.tables tn = some t →
        Analyzer.describe md (.insert sn tn) =
          .ok (.insert ⟨(sch.schemaId, t.tableId), t.columns.map ColumnDef.sqlType⟩)) := by
  refine ⟨?_, ?_, ?_⟩
  · intro h
    simp [Analyzer.describe, Metadata.tableDesc, h]
  · intro sch hs ht
    simp [Analyzer.describe, Metadata.tableDesc, hs, ht]
  · intro sch t hs ht
    simp [Analyzer.describe, Metadata.tableDesc, hs, ht]

/-- C8 witness: a metadata catalog with schema `s` (id 7) holding table `t`
(id 3) with one `bool` column, probed at a missing schema, a missing table,
and the existing pair. -/
theorem describe_insert_spec_witness :
    Analyzer.describe ⟨[("s", ⟨7, [("t", ⟨3, [⟨"c", SqlType.bool⟩]⟩)]⟩)]⟩
        (.insert "x" "t") = .err (.schemaDoesNotExist "x") ∧
      Analyzer.describe ⟨[("s", ⟨7, [("t", ⟨3, [⟨"c", SqlType.bool⟩]⟩)]⟩)]⟩
          (.insert "s" "u") = .err (.tableDoesNotExist ("s" ++ "." ++ "u")) ∧
      Analyzer.describe ⟨[("s", ⟨7, [("t", ⟨3, [⟨"c", SqlType.bool⟩]⟩)]⟩)]⟩
          (.insert "s" "t") = .ok (.insert ⟨(7, 3), [SqlType.bool]⟩) :=
  ⟨(describe_insert_spec ⟨[("s", ⟨7, [("t", ⟨3, [⟨"c", SqlType.bool⟩]⟩)]⟩)]⟩ "x" "t").1 rfl,
    (describe_insert_spec ⟨[("s", ⟨7, [("t", ⟨3, [⟨"c", SqlType.bool⟩]⟩)]⟩)]⟩ "s" "u").2.1
      _ rfl rfl,
    (describe_insert_spec ⟨[("s", ⟨7, [("t", ⟨3, [⟨"c", SqlType.bool⟩]⟩)]⟩)]⟩ "s" "t").2.2
      _ _ rfl rfl⟩

/-- C9: in the extended-query Parse flow, when the analyzer reports
`DescriptionError::SchemaDoesNotExist`, the session surfaces
`table_does_not_exist` carrying the schema name (mod.rs lines 203-207),
not `schema_does_not_exist`. -/
theorem parse_insert_schema_error_surfaces_table_error (md : Metadata)
    (session : SessionState) (statementName : String) (stmt : Statement)
    (schemaName : String)
    (h : Analyzer.describe md stmt = .err (.schemaDoesNotExist schemaName)) :
    parseInsertArm md session statementName stmt =
      some (session, [Except.error (QueryError.tableDoesNotExist schemaName)]) := by
  unfold parseInsertArm
  rw [h]

/-- C9 witness: an INSERT into a schema missing from an empty metadata
catalog. -/
theorem parse_insert_schema_error_witness :
    Analyzer.describe ⟨[]⟩ (Statement.insert "sch" "tbl")
        = .err (.schemaDoesNotExist "sch") ∧
      parseInsertArm ⟨[]⟩ ⟨[], []⟩ "st" (Statement.insert "sch" "tbl")
        = some (⟨[], []⟩, [Except.error (QueryError.tableDoesNotExist "sch")]) :=
  ⟨rfl, parse_insert_schema_error_surfaces_table_error ⟨[]⟩ ⟨[], []⟩ "st"
    (Statement.insert "sch" "tbl") "sch" rfl⟩

/-- C10: `Analyzer::describe` is defined only on INSERT statements; every
non-INSERT statement hits the `unimplemented!()` arm (a panic) instead of
returning a description or an error. -/
theorem describe_panics_on_non_insert (md : Metadata) (stmt : Statement)
    (h : stmt.isInsert = false) :
    Analyzer.describe md stmt = .panics := by
  cases stmt <;> simp_all [Statement.isInsert, Analyzer.describe]

/-- C10 witness: a SELECT statement panics even when schema and table
exist. -/
theorem describe_panics_witness :
    (Statement.select "s" "t").isInsert = false ∧
      Analyzer.describe ⟨[("s", ⟨1, [("t", ⟨2, []⟩)]⟩)]⟩ (Statement.select "s" "t")
        = .panics :=
  ⟨rfl, describe_panics_on_non_insert ⟨[("s", ⟨1, [("t", ⟨2, []⟩)]⟩)]⟩
    (Statement.select "s" "t") rfl⟩
